import Mathlib

/-!
Verification development for the phone-number-to-contact resolution engine of
the gcs-push-analytics-to-hubspot repository.

The JavaScript sources are shallowly embedded below:
* `generatePhoneNumberVariations` and its country helpers come from
  `src/phoneNumberParsing.js`;
* `contactExistanceBulkOnHubspot` (chunking, per-chunk error recovery,
  deduplication and matching) comes from `src/hubspot.js`;
* `contactExistanceBulkOnHubspotAuth` is the variant with the 401
  refresh-and-retry path from `src/unnamed/part_001`;
* `contactExistanceBulkOnZoho` comes from `src/unnamed/part_003`
  (the same function also appears concatenated in `src/phoneNumberParsing.js`).

The external libphonenumber-js collaborator is modelled as an abstract
function `PhoneParser`; everything proved here holds for every parser.
-/

namespace GcsPush

/-- JavaScript global replace of non-digits by the empty string: keep only decimal digits. -/
def digitsOnly (s : String) : String :=
  ⟨s.data.filter (fun c => c.isDigit)⟩

/-- JavaScript character class `[\s-]` (whitespace or dash). -/
def jsSpaceDash (c : Char) : Bool :=
  c.isWhitespace || c = '-'

/-- JavaScript global removal of parenthesis characters. -/
def stripParens (s : String) : String :=
  ⟨s.data.filter (fun c => !(c = '(' || c = ')'))⟩

/-- JavaScript global removal of whitespace and dash characters. -/
def stripSpaceDash (s : String) : String :=
  ⟨s.data.filter (fun c => !jsSpaceDash c)⟩

/-- JavaScript global replacement of each dash by a dot. -/
def dashToDot (s : String) : String :=
  ⟨s.data.map (fun c => if c = '-' then '.' else c)⟩

/-- JavaScript global replacement of each whitespace or dash by an underscore. -/
def spaceDashToUnderscore (s : String) : String :=
  ⟨s.data.map (fun c => if jsSpaceDash c then '_' else c)⟩

/-- Helper for `String.replace('+', '')`: drop the first `'+'` of a
character list, leaving any later occurrence in place. -/
def removeFirstPlusList : List Char → List Char
  | [] => []
  | c :: cs => if c = '+' then cs else c :: removeFirstPlusList cs

/-- JavaScript `phone.replace('+', '')` with a *string* pattern: only the
first occurrence of `'+'` is removed. -/
def replaceFirstPlus (s : String) : String :=
  ⟨removeFirstPlusList s.data⟩

/-- JavaScript `phone.includes("+")`. -/
def hasPlus (s : String) : Bool :=
  s.data.contains '+'

/-- Model of the parsed-number value returned by libphonenumber-js
(`parsePhoneNumberFromString`): the fields and the two `format` styles the
repository reads.  `country` is `none` when the library cannot detect an
ISO country. -/
structure ParsedNumber where
  number : String
  nationalNumber : String
  countryCallingCode : String
  country : Option String
  formatInternational : String
  formatNational : String

/-- The external phone-parsing collaborator
(`parsePhoneNumberFromString`): returns `none` on malformed input
instead of throwing. -/
def PhoneParser : Type := String → Option ParsedNumber

/-- Embedding of `addBrazilianFormats` from `src/phoneNumberParsing.js`: adds formats of
the number with the ninth mobile digit inserted after the 2-digit area code
when the national number has 10 digits. -/
def addBrazilianFormats (parse : PhoneParser) (countryCode nationalNumber : String) :
    List String :=
  if nationalNumber.length = 10 then
    let areaCode := nationalNumber.take 2
    let localNumber := nationalNumber.drop 2
    let numberWithNinthDigit := areaCode ++ "9" ++ localNumber
    match parse ("+" ++ countryCode ++ numberWithNinthDigit) with
    | some brParsedWithNinth =>
        [brParsedWithNinth.number, brParsedWithNinth.nationalNumber,
         brParsedWithNinth.formatInternational, brParsedWithNinth.formatNational]
    | none => []
  else []

/-- Embedding of `addMexicanFormats`: adds the legacy `+52 1 …` mobile forms and the
forms with the leading `1` stripped. -/
def addMexicanFormats (parse : PhoneParser) (countryCode nationalNumber : String) :
    List String :=
  let nationalNumberWithout1 := nationalNumber.drop 1
  match parse ("+" ++ countryCode ++ "1" ++ nationalNumber) with
  | some mxParsedWithLegacy1 =>
      [mxParsedWithLegacy1.number, mxParsedWithLegacy1.nationalNumber,
       "521" ++ nationalNumber, "52" ++ nationalNumberWithout1,
       "+52" ++ nationalNumberWithout1, nationalNumberWithout1,
       mxParsedWithLegacy1.formatInternational, mxParsedWithLegacy1.formatNational]
  | none => []

/-- Embedding of `addArgentinianFormats`: adds the `9` mobile-marker forms, and the
variants with a leading `15` trunk code stripped. -/
def addArgentinianFormats (parse : PhoneParser) (countryCode nationalNumber : String) :
    List String :=
  (match parse ("+" ++ countryCode ++ "9" ++ nationalNumber) with
   | some arParsedWith9 =>
       [arParsedWith9.number, arParsedWith9.nationalNumber,
        arParsedWith9.formatInternational, arParsedWith9.formatNational]
   | none => [])
  ++ (if nationalNumber.startsWith "15" then
        let numberWithout15 := nationalNumber.drop 2
        ["+" ++ countryCode ++ numberWithout15,
         "+" ++ countryCode ++ "9" ++ numberWithout15,
         numberWithout15]
      else [])

/-- Embedding of `addColombianFormats`: substitutes single-digit carrier codes `1`–`5`
after the 3-digit area code of a 10-digit national number. -/
def addColombianFormats (countryCode nationalNumber : String) : List String :=
  if nationalNumber.length = 10 then
    let areaCode := nationalNumber.take 3
    let localNumber := nationalNumber.drop 3
    ["1", "2", "3", "4", "5"].foldl
      (fun acc carrier =>
        let withCarrier := areaCode ++ carrier ++ localNumber
        acc ++ ["+" ++ countryCode ++ withCarrier, withCarrier]) []
  else []

/-- Embedding of `addVenezuelanFormats`: re-prepends each of the common area codes to a
7-digit national number. -/
def addVenezuelanFormats (countryCode nationalNumber : String) : List String :=
  if nationalNumber.length = 7 then
    ["212", "414", "416", "424", "426"].foldl
      (fun acc areaCode =>
        acc ++ ["+" ++ countryCode ++ areaCode ++ nationalNumber,
                areaCode ++ nationalNumber]) []
  else []

/-- Embedding of `addIvoryCoastFormats`: prepends a historical `5`. -/
def addIvoryCoastFormats (nationalNumber : String) : List String :=
  ["5" ++ nationalNumber]

/-- Embedding of `addIndonesianFormats`: leading-zero variant, and variants stripping or
zero-prefixing a major-city area code. -/
def addIndonesianFormats (nationalNumber : String) : List String :=
  (if !nationalNumber.startsWith "0" then ["0" ++ nationalNumber] else [])
  ++ ["21", "22", "24", "31", "341", "361"].foldl
      (fun acc areaCode =>
        if nationalNumber.startsWith areaCode then
          let withoutAreaCode := nationalNumber.drop areaCode.length
          acc ++ [withoutAreaCode, "0" ++ areaCode ++ withoutAreaCode]
        else acc) []

/-- Embedding of `addIndianFormats`: zero-prefixed variant and the variant with a space
after the first 4 digits, for 10-digit numbers. -/
def addIndianFormats (nationalNumber : String) : List String :=
  if nationalNumber.length = 10 then
    let mobileStart := nationalNumber.take 4
    let remaining := nationalNumber.drop 4
    ["0" ++ nationalNumber, mobileStart ++ " " ++ remaining]
  else []

/-- Embedding of `addCommonInternationalFormats`: generic fallback for countries without
a dedicated branch. -/
def addCommonInternationalFormats (p : ParsedNumber) : List String :=
  let formatted := p.formatNational
  let intlFormatted := p.formatInternational
  (if formatted.data.contains '(' then [stripParens formatted] else [])
  ++ [stripSpaceDash formatted,
      replaceFirstPlus intlFormatted,
      stripSpaceDash intlFormatted]

/-- Embedding of `addCountrySpecificFormats`: dispatch on the detected country
(`parsedNumber.country`); unrecognized or undetected countries fall through
to the generic heuristic. -/
def addCountrySpecificFormats (parse : PhoneParser) (p : ParsedNumber) : List String :=
  match p.country with
  | some "BR" => addBrazilianFormats parse p.countryCallingCode p.nationalNumber
  | some "MX" => addMexicanFormats parse p.countryCallingCode p.nationalNumber
  | some "AR" => addArgentinianFormats parse p.countryCallingCode p.nationalNumber
  | some "CO" => addColombianFormats p.countryCallingCode p.nationalNumber
  | some "VE" => addVenezuelanFormats p.countryCallingCode p.nationalNumber
  | some "CI" => addIvoryCoastFormats p.nationalNumber
  | some "ID" => addIndonesianFormats p.nationalNumber
  | some "IN" => addIndianFormats p.nationalNumber
  | _ => addCommonInternationalFormats p

/-- Embedding of `addHubSpotSpecificFormats`: punctuation-normalized CRM variants. -/
def addHubSpotSpecificFormats (p : ParsedNumber) : List String :=
  let nationalFormatted := p.formatNational
  [dashToDot nationalFormatted,
   spaceDashToUnderscore nationalFormatted,
   p.countryCallingCode ++ p.nationalNumber,
   digitsOnly p.formatInternational]

/-- Normalization at the top of `generatePhoneNumberVariations`:
`phone.includes("+") ? phone : `+${phone}``. -/
def plusNormalize (phone : String) : String :=
  if hasPlus phone then phone else "+" ++ phone

/-- Sequential JavaScript `Set.add` semantics followed by `Array.from`:
keep the first occurrence of each string, in insertion order. -/
def dedupKeepFirst (l : List String) : List String :=
  l.foldl (fun acc s => if s ∈ acc then acc else acc ++ [s]) []

/-- The sequence of `valueSet.add(...)` calls performed by
`generatePhoneNumberVariations` for a (truthy) string input, in source
order.  When parsing fails only the raw string and the raw string with its
first `'+'` removed are added. -/
def variationAdds (parse : PhoneParser) (phone : String) : List String :=
  let phoneNum := plusNormalize phone
  match parse phoneNum with
  | none =>
      [phone, replaceFirstPlus phone]
  | some parsedNumber =>
      let nationalNumber := parsedNumber.nationalNumber
      let countryCode := parsedNumber.countryCallingCode
      [phone,
       parsedNumber.number,
       nationalNumber,
       countryCode ++ nationalNumber,
       parsedNumber.formatInternational,
       parsedNumber.formatNational,
       "0" ++ nationalNumber]
      ++ (if nationalNumber.startsWith "0" then [nationalNumber.drop 1] else [])
      ++ addCountrySpecificFormats parse parsedNumber
      ++ addHubSpotSpecificFormats parsedNumber

/-- The array returned by `generatePhoneNumberVariations` for a (truthy)
string input: the `Set` of all added strings, in insertion order. -/
def variationList (parse : PhoneParser) (phone : String) : List String :=
  dedupKeepFirst (variationAdds parse phone)

/-- The JavaScript values a caller can pass for `phone`; the repository
guards with `phone && typeof phone === 'string'` at batch level, but
`generatePhoneNumberVariations` itself only checks `!phone`. -/
inductive JSValue where
  | vstr (s : String)
  | vnum (n : Int)
  | vbool (b : Bool)
  | vnull
  | vundefined
deriving DecidableEq

/-- JavaScript truthiness of a `JSValue`. -/
def jsTruthy : JSValue → Bool
  | .vstr s => s ≠ ""
  | .vnum n => n ≠ 0
  | .vbool b => b
  | .vnull => false
  | .vundefined => false

/-- JavaScript `typeof v === 'string'`. -/
def isJsString : JSValue → Bool
  | .vstr _ => true
  | _ => false

/-- The ways `generatePhoneNumberVariations` can throw: the explicit
`Error('Phone number is required')` guard for falsy input, or the runtime
`TypeError` raised when `phone.includes` is evaluated on a truthy
non-string value. -/
inductive JSError where
  | invalidInput (msg : String)
  | typeError (msg : String)
deriving DecidableEq

/-- Embedding of `generatePhoneNumberVariations` from `src/phoneNumberParsing.js`,
including its dynamic-typing behaviour: falsy input hits the
`if (!phone) throw` guard; a truthy non-string survives the guard but
fails at `phone.includes("+")` with a `TypeError`; a non-empty string
never throws. -/
def generatePhoneNumberVariations (parse : PhoneParser) :
    JSValue → Except JSError (List String)
  | v =>
    if !jsTruthy v then
      .error (.invalidInput "Phone number is required")
    else
      match v with
      | .vstr phone => .ok (variationList parse phone)
      | _ => .error (.typeError "phone.includes is not a function")

/-- The variations recorded for one entry of `phoneNumbers` by the batch
loops (`phoneToVariationsMap[phone] || []`): only truthy strings get an
entry. -/
def phoneVariations (parse : PhoneParser) : JSValue → List String
  | .vstr s => if s = "" then [] else variationList parse s
  | _ => []

/-- The `phoneNumbers.forEach` accumulation of `allPhoneNumberVariations`
in `contactExistanceBulkOnHubspot`, written in the `Except` monad so that
a throw inside the loop would abort it (the guard ensures it never does). -/
def collectVariations (parse : PhoneParser) : List JSValue → Except JSError (List String)
  | [] => .ok []
  | v :: vs =>
    if jsTruthy v && isJsString v then
      match generatePhoneNumberVariations parse v with
      | .error e => .error e
      | .ok variations =>
        match collectVariations parse vs with
        | .error e => .error e
        | .ok rest => .ok (variations ++ rest)
    else collectVariations parse vs

/-- The pure value of the `allPhoneNumberVariations` pool (the loop above
never throws, see `collectVariations_ok`). -/
def allVariations (parse : PhoneParser) : List JSValue → List String
  | [] => []
  | v :: vs =>
      (if jsTruthy v && isJsString v then phoneVariations parse v else [])
        ++ allVariations parse vs

/-- A HubSpot contact record as consumed by the matcher: an identifier and
the five phone-bearing properties requested by the search
(`properties.phone`, `properties.mobilephone`, ...).  `none` models an
absent (`undefined`/`null`) property. -/
structure Contact where
  id : String
  phone : Option String
  mobilephone : Option String
  hs_searchable_calculated_phone_number : Option String
  hs_searchable_calculated_mobile_number : Option String
  hs_whatsapp_phone_number : Option String
deriving DecidableEq

/-- The `contactPhones` array of `contactExistanceBulkOnHubspot`:
the five property values with `.filter(Boolean)` applied, which drops both
absent values and empty strings (both falsy). -/
def contactPhones (contact : Contact) : List String :=
  ([contact.phone, contact.mobilephone,
    contact.hs_searchable_calculated_phone_number,
    contact.hs_searchable_calculated_mobile_number,
    contact.hs_whatsapp_phone_number].filterMap id).filter (fun s => s != "")

/-- The two-pass comparison of the matcher: exact string equality, or
equality of the digit-only strippings of both sides. -/
def phoneMatches (contactPhone variation : String) : Bool :=
  contactPhone == variation ||
    digitsOnly contactPhone == digitsOnly variation

/-- The predicate of the `uniqueContacts.filter(...)` call: some variation
of the phone matches some phone-bearing field value of the contact. -/
def contactMatchesVariations (variations : List String) (contact : Contact) : Bool :=
  variations.any (fun variation =>
    (contactPhones contact).any (fun contactPhone =>
      phoneMatches contactPhone variation))

/-- The `allContacts.reduce(...)` deduplication by `id`: keep the first
occurrence of each identifier, in order. -/
def dedupById (contacts : List Contact) : List Contact :=
  contacts.foldl
    (fun acc contact =>
      if acc.any (fun c => c.id == contact.id) then acc else acc ++ [contact]) []

/-- JavaScript object-key assignment `m[k] = v` on a key-ordered map. -/
def objSet (m : List (String × Contact)) (k : String) (v : Contact) :
    List (String × Contact) :=
  if m.any (fun kv => kv.1 == k) then
    m.map (fun kv => if kv.1 == k then (k, v) else kv)
  else m ++ [(k, v)]

/-- The final `phoneNumbers.forEach` of `contactExistanceBulkOnHubspot`:
for each truthy string phone, filter the deduplicated contacts by
`contactMatchesVariations` and, when non-empty, record the first matching
contact under the original phone. -/
def buildMap (parse : PhoneParser) (uniqueContacts : List Contact)
    (phoneNumbers : List JSValue) : List (String × Contact) :=
  phoneNumbers.foldl
    (fun m v =>
      match v with
      | .vstr originalPhone =>
        if originalPhone = "" then m
        else
          match (uniqueContacts.filter
                  (contactMatchesVariations (phoneVariations parse v))).head? with
          | some c => objSet m originalPhone c
          | none => m
      | _ => m) []

/-- The batching loop `for (let i = 0; i < list.length; i += k)
batches.push(list.slice(i, i + k))`, as successive take/drop of `k`
elements.  (`k = 0` cannot occur in the repository; the guard only makes
the recursion total.) -/
def chunkList {α : Type} (k : Nat) (l : List α) : List (List α) :=
  if h : l.isEmpty ∨ k = 0 then [] else l.take k :: chunkList k (l.drop k)
termination_by l.length
decreasing_by
  push_neg at h
  rw [List.length_drop]
  have hl : l ≠ [] := by
    intro hnil
    exact absurd (by simp [hnil]) h.1
  have : 0 < l.length := List.length_pos.2 hl
  omega

/-- The chunk loop of `contactExistanceBulkOnHubspot` (`src/hubspot.js`):
one search call per batch; a failed batch is caught, logged and skipped
(`continue`), a successful batch appends its contacts.  The second
component counts the search invocations. -/
def runChunks (search : Nat → List String → Except String (List Contact)) :
    Nat → List (List String) → List Contact × Nat
  | _, [] => ([], 0)
  | i, batch :: rest =>
    match search i batch with
    | .ok results =>
        let r := runChunks search (i + 1) rest
        (results ++ r.1, r.2 + 1)
    | .error _ =>
        let r := runChunks search (i + 1) rest
        (r.1, r.2 + 1)

/-- Embedding of `contactExistanceBulkOnHubspot` from `src/hubspot.js`, with the HTTP
search modelled as a collaborator `search` taking the chunk index and the
batch of up-to-100 variation strings.  Mirrors: variation pooling, the
early `return []` when the pool is empty, batching by 100, the
skip-on-error chunk loop, deduplication by id, and the final
phone-to-contact map.  The returned association list models
`chatIdToContactIdMap` (each value records the matched contact;
`contactId` is its `id` field). -/
def contactExistanceBulkOnHubspot (parse : PhoneParser)
    (search : Nat → List String → Except String (List Contact))
    (phoneNumbers : List JSValue) : List (String × Contact) :=
  let allPhoneNumberVariations := allVariations parse phoneNumbers
  if allPhoneNumberVariations.isEmpty then []
  else
    let batches := chunkList 100 allPhoneNumberVariations
    let allContacts := (runChunks search 0 batches).1
    let uniqueContacts := dedupById allContacts
    buildMap parse uniqueContacts phoneNumbers

/-- The number of times `contactExistanceBulkOnHubspot` invokes the search
collaborator: none when the pool is empty (early return), otherwise one
per batch as counted by `runChunks`. -/
def searchInvocations (parse : PhoneParser)
    (search : Nat → List String → Except String (List Contact))
    (phoneNumbers : List JSValue) : Nat :=
  let allPhoneNumberVariations := allVariations parse phoneNumbers
  if allPhoneNumberVariations.isEmpty then 0
  else (runChunks search 0 (chunkList 100 allPhoneNumberVariations)).2

/-- Replace chunk `j` of a search collaborator by one that succeeds with no
contacts: the behaviour the `catch { continue }` recovery gives a failing
chunk. -/
def patchChunk (j : Nat)
    (search : Nat → List String → Except String (List Contact)) :
    Nat → List String → Except String (List Contact) :=
  fun i batch => if i = j then .ok [] else search i batch

/-- An HTTP error as seen by the chunk loop of `src/unnamed/part_001`:
the response status (`batchError.response?.status`) and a message. -/
structure HttpError where
  status : Nat
  msg : String
deriving DecidableEq

/-- The chunk loop of the `contactExistanceBulkOnHubspot` variant in
`src/unnamed/part_001` (token refresh path).  Per chunk:

* a successful search appends its contacts and continues;
* a non-401 failure is skipped (`continue`);
* a 401 failure with no refresh token rethrows the original error;
* a 401 with a refresh token attempts exactly one refresh; if
  refreshing or the single retried search fails, the ORIGINAL 401 error
  is rethrown (`throw batchError`), aborting the whole loop; when the
  retry succeeds its contacts are appended and the remaining chunks run
  with the new access token.

The `Nat` component counts invocations of `search` (a retried chunk
accounts for two). -/
def runChunksAuth (search : String → List String → Except HttpError (List Contact))
    (refreshToken : Option String)
    (refreshHubSpotToken : String → Except String String) :
    String → List (List String) → Except HttpError (List Contact × Nat)
  | _, [] => .ok ([], 0)
  | accessToken, batch :: rest =>
    match search accessToken batch with
    | .ok results =>
        (match runChunksAuth search refreshToken refreshHubSpotToken accessToken rest with
         | .ok (r, n) => .ok (results ++ r, n + 1)
         | .error e => .error e)
    | .error batchError =>
      if batchError.status = 401 then
        match refreshToken with
        | some rt =>
          (match refreshHubSpotToken rt with
           | .ok newAccessToken =>
             (match search newAccessToken batch with
              | .ok retryResults =>
                  (match runChunksAuth search refreshToken refreshHubSpotToken
                          newAccessToken rest with
                   | .ok (r, n) => .ok (retryResults ++ r, n + 2)
                   | .error e => .error e)
              | .error _ => .error batchError)
           | .error _ => .error batchError)
        | none => .error batchError
      else
        (match runChunksAuth search refreshToken refreshHubSpotToken accessToken rest with
         | .ok (r, n) => .ok (r, n + 1)
         | .error e => .error e)

/-- Embedding of `contactExistanceBulkOnHubspot` from `src/unnamed/part_001`: same
pipeline as `src/hubspot.js` but running the chunk loop with the 401
refresh-and-retry path; an error escaping the loop is re-thrown to the
caller by the enclosing `catch`. -/
def contactExistanceBulkOnHubspotAuth (parse : PhoneParser)
    (search : String → List String → Except HttpError (List Contact))
    (refreshToken : Option String)
    (refreshHubSpotToken : String → Except String String)
    (accessToken : String)
    (phoneNumbers : List JSValue) : Except HttpError (List (String × Contact)) :=
  let allPhoneNumberVariations := allVariations parse phoneNumbers
  if allPhoneNumberVariations.isEmpty then .ok []
  else
    match runChunksAuth search refreshToken refreshHubSpotToken accessToken
            (chunkList 100 allPhoneNumberVariations) with
    | .error e => .error e
    | .ok (allContacts, _) =>
        .ok (buildMap parse (dedupById allContacts) phoneNumbers)

/-- One entry of a Zoho composite response
(`compositeResponse.details.response`): a status code and the `body.data`
contact list. -/
structure ZResp where
  status : Nat
  data : List Contact

/-- The per-phone search criteria string built by
`contactExistanceBulkOnZoho`. -/
def zohoCriteria (variations : List String) : String :=
  let phoneVariationsStr := String.intercalate "," variations
  "(Phone:in:" ++ phoneVariationsStr ++ ") or (Mobile:in:" ++ phoneVariationsStr ++ ")"

/-- Embedding of `contactExistanceBulkOnZoho` from `src/unnamed/part_003` (also
concatenated into `src/phoneNumberParsing.js`).  The composite HTTP call
is the collaborator `server`, taking the list of per-phone criteria of one
chunk and returning one response per request.  Phones are chunked by 5;
for each request whose response has status 200 and non-empty `data`, the
ORIGINAL phone is mapped to the FIRST record of `data` — no client-side
deduplication and no variation matching happen here; a chunk-level error
is caught and skipped.  (Non-string phones are modelled as skipped: they
have no `phoneToVariationsMap` entry.) -/
def contactExistanceBulkOnZoho (parse : PhoneParser)
    (server : List String → Except String (List ZResp))
    (phoneNumbers : List JSValue) : List (String × Contact) :=
  if phoneNumbers = [] then []
  else
    (chunkList 5 phoneNumbers).foldl
      (fun m phoneChunk =>
        let requests := phoneChunk.foldl
          (fun (acc : List (String × String)) v =>
            match v with
            | .vstr phone =>
              let variations := phoneVariations parse v
              if variations.length = 0 then acc
              else acc ++ [(phone, zohoCriteria variations)]
            | _ => acc) []
        if requests = [] then m
        else
          match server (requests.map (fun rq => rq.2)) with
          | .error _ => m
          | .ok responses =>
            (requests.zip responses).foldl
              (fun m2 rqResp =>
                match (rqResp.2).data with
                | [] => m2
                | contactData :: _ =>
                  if (rqResp.2).status = 200 then objSet m2 (rqResp.1).1 contactData
                  else m2) m) []

/-! Helper lemmas. -/

theorem mem_foldl_addNew (l acc : List String) (x : String) :
    (x ∈ l.foldl (fun acc s => if s ∈ acc then acc else acc ++ [s]) acc) ↔
      x ∈ acc ∨ x ∈ l := by
  induction l generalizing acc with
  | nil => simp
  | cons a l ih =>
    simp only [List.foldl_cons]
    rw [ih]
    by_cases ha : a ∈ acc
    · simp only [if_pos ha]
      constructor
      · rintro (h | h)
        · exact Or.inl h
        · exact Or.inr (List.mem_cons_of_mem _ h)
      · rintro (h | h)
        · exact Or.inl h
        · rcases List.mem_cons.1 h with rfl | h
          · exact Or.inl ha
          · exact Or.inr h
    · simp only [if_neg ha, List.mem_append, List.mem_singleton, List.mem_cons]
      tauto

theorem mem_dedupKeepFirst (l : List String) (x : String) :
    x ∈ dedupKeepFirst l ↔ x ∈ l := by
  rw [dedupKeepFirst, mem_foldl_addNew]
  simp

theorem variationAdds_eq_cons (parse : PhoneParser) (phone : String) :
    ∃ t, variationAdds parse phone = phone :: t := by
  rw [variationAdds]
  cases parse (plusNormalize phone) with
  | none => exact ⟨_, rfl⟩
  | some p => exact ⟨_, rfl⟩

theorem raw_mem_variationList (parse : PhoneParser) (phone : String) :
    phone ∈ variationList parse phone := by
  rw [variationList, mem_dedupKeepFirst]
  obtain ⟨t, ht⟩ := variationAdds_eq_cons parse phone
  rw [ht]
  exact List.mem_cons_self _ _

theorem variationList_ne_nil (parse : PhoneParser) (phone : String) :
    variationList parse phone ≠ [] :=
  List.ne_nil_of_mem (raw_mem_variationList parse phone)

theorem number_mem_variationList (parse : PhoneParser) (phone : String)
    (p : ParsedNumber) (h : parse (plusNormalize phone) = some p) :
    p.number ∈ variationList parse phone := by
  rw [variationList, mem_dedupKeepFirst, variationAdds, h]
  simp

theorem variationList_of_parse_fail (parse : PhoneParser) (phone : String)
    (h : parse (plusNormalize phone) = none) :
    variationList parse phone = dedupKeepFirst [phone, replaceFirstPlus phone] := by
  rw [variationList, variationAdds, h]

theorem removeFirstPlusList_of_not_mem (l : List Char) (h : '+' ∉ l) :
    removeFirstPlusList l = l := by
  induction l with
  | nil => rfl
  | cons c cs ih =>
    rw [removeFirstPlusList]
    rw [List.mem_cons, not_or] at h
    rw [if_neg (fun hc => h.1 hc.symm), ih h.2]

theorem replaceFirstPlus_of_no_plus (s : String) (h : '+' ∉ s.data) :
    replaceFirstPlus s = s := by
  rw [replaceFirstPlus, removeFirstPlusList_of_not_mem s.data h]

theorem removeFirstPlusList_append (l₁ l₂ : List Char) (h : '+' ∉ l₁) :
    removeFirstPlusList (l₁ ++ '+' :: l₂) = l₁ ++ l₂ := by
  induction l₁ with
  | nil => simp [removeFirstPlusList]
  | cons c cs ih =>
    rw [List.mem_cons, not_or] at h
    rw [List.cons_append, removeFirstPlusList, if_neg (fun hc => h.1 hc.symm), ih h.2,
      List.cons_append]

theorem replaceFirstPlus_append (s₁ s₂ : String) (h : '+' ∉ s₁.data) :
    replaceFirstPlus (s₁ ++ "+" ++ s₂) = s₁ ++ s₂ := by
  rw [replaceFirstPlus]
  have hdata : (s₁ ++ "+" ++ s₂).data = s₁.data ++ '+' :: s₂.data := by
    rw [String.data_append, String.data_append, List.append_assoc]
    rfl
  rw [hdata, removeFirstPlusList_append _ _ h]
  have : s₁.data ++ s₂.data = (s₁ ++ s₂).data := (String.data_append s₁ s₂).symm
  cases hs : s₁ ++ s₂
  rw [hs] at this
  exact congrArg String.mk this

theorem generatePhoneNumberVariations_vstr (parse : PhoneParser) (phone : String)
    (h : phone ≠ "") :
    generatePhoneNumberVariations parse (.vstr phone) = .ok (variationList parse phone) := by
  rw [generatePhoneNumberVariations]
  simp [jsTruthy, h]

theorem collectVariations_ok (parse : PhoneParser) (vs : List JSValue) :
    collectVariations parse vs = .ok (allVariations parse vs) := by
  induction vs with
  | nil => rfl
  | cons v vs ih =>
    rw [collectVariations, allVariations]
    cases v with
    | vstr s =>
      by_cases hs : s = ""
      · subst hs
        simp [jsTruthy, ih]
      · have htr : (jsTruthy (.vstr s) && isJsString (.vstr s)) = true := by
          simp [jsTruthy, isJsString, hs]
        rw [htr, generatePhoneNumberVariations_vstr parse s hs, ih]
        simp [phoneVariations, hs]
    | vnum n => simpa [jsTruthy, isJsString] using ih
    | vbool b => simpa [jsTruthy, isJsString] using ih
    | vnull => simpa [jsTruthy, isJsString] using ih
    | vundefined => simpa [jsTruthy, isJsString] using ih

theorem chunkList_nil {α : Type} (k : Nat) : chunkList k ([] : List α) = [] := by
  rw [chunkList.eq_def]
  simp

theorem chunkList_cons {α : Type} (k : Nat) (a : α) (l : List α) (hk : k ≠ 0) :
    chunkList k (a :: l) = (a :: l).take k :: chunkList k ((a :: l).drop k) := by
  rw [chunkList.eq_def]
  simp [hk]

theorem chunkList_length_aux :
    ∀ (n : Nat) (l : List String), l.length ≤ n →
      (chunkList 100 l).length = (l.length + 99) / 100 := by
  intro n
  induction n with
  | zero =>
    intro l h
    have hl : l = [] := List.eq_nil_of_length_eq_zero (Nat.le_zero.1 h)
    subst hl
    rw [chunkList_nil]
    simp
  | succ n ih =>
    intro l h
    match l with
    | [] => rw [chunkList_nil]; simp
    | a :: l' =>
      rw [chunkList_cons _ _ _ (by norm_num), List.length_cons]
      rw [ih ((a :: l').drop 100) (by simp at h ⊢; omega)]
      simp only [List.length_drop, List.length_cons]
      omega

theorem chunkList_length (l : List String) :
    (chunkList 100 l).length = (l.length + 99) / 100 :=
  chunkList_length_aux l.length l le_rfl

theorem chunkList_mem_le_aux {α : Type} (k : Nat) :
    ∀ (n : Nat) (l : List α), l.length ≤ n → ∀ b ∈ chunkList k l, b.length ≤ k := by
  intro n
  induction n with
  | zero =>
    intro l h b hb
    have hl : l = [] := List.eq_nil_of_length_eq_zero (Nat.le_zero.1 h)
    subst hl
    rw [chunkList_nil] at hb
    simp at hb
  | succ n ih =>
    intro l h b hb
    match l with
    | [] => rw [chunkList_nil] at hb; simp at hb
    | a :: l' =>
      by_cases hk : k = 0
      · subst hk
        rw [chunkList.eq_def] at hb
        simp at hb
      · rw [chunkList_cons _ _ _ hk] at hb
        rcases List.mem_cons.1 hb with hb1 | hb1
        · subst hb1; simp
        · exact ih ((a :: l').drop k) (by simp at h ⊢; omega) b hb1

theorem chunkList_mem_le {α : Type} (k : Nat) (l : List α) :
    ∀ b ∈ chunkList k l, b.length ≤ k :=
  chunkList_mem_le_aux k l.length l le_rfl

theorem runChunks_count (search : Nat → List String → Except String (List Contact)) :
    ∀ (bs : List (List String)) (i : Nat), (runChunks search i bs).2 = bs.length := by
  intro bs
  induction bs with
  | nil => intro i; rfl
  | cons b rest ih =>
    intro i
    rw [runChunks]
    cases search i b with
    | ok results => simpa using ih (i + 1)
    | error e => simpa using ih (i + 1)

theorem runChunks_patch (search : Nat → List String → Except String (List Contact))
    (j : Nat) (e : String) (hfail : ∀ b, search j b = .error e) :
    ∀ (bs : List (List String)) (i : Nat),
      runChunks search i bs = runChunks (patchChunk j search) i bs := by
  intro bs
  induction bs with
  | nil => intro i; rfl
  | cons b rest ih =>
    intro i
    simp only [runChunks]
    by_cases hij : i = j
    · subst hij
      have hp : patchChunk i search i b = .ok [] := if_pos rfl
      rw [hfail b, hp]
      simp [ih (i + 1)]
    · have hp : patchChunk j search i b = search i b := if_neg hij
      rw [hp]
      cases hsb : search i b <;> simp [ih (i + 1)]

theorem runChunks_mem (search : Nat → List String → Except String (List Contact)) :
    ∀ (bs : List (List String)) (i0 i : Nat) (b : List String) (cs : List Contact),
      bs[i]? = some b → search (i0 + i) b = .ok cs →
      ∀ c ∈ cs, c ∈ (runChunks search i0 bs).1 := by
  intro bs
  induction bs with
  | nil => intro i0 i b cs hb; simp at hb
  | cons hd rest ih =>
    intro i0 i b cs hb hok c hc
    cases i with
    | zero =>
      simp at hb
      subst hb
      rw [runChunks]
      rw [show i0 + 0 = i0 from rfl] at hok
      rw [hok]
      simpa using Or.inl hc
    | succ i' =>
      simp only [List.getElem?_cons_succ] at hb
      have hok' : search ((i0 + 1) + i') b = .ok cs := by
        rw [show (i0 + 1) + i' = i0 + (i' + 1) by omega]
        exact hok
      have hmem := ih (i0 + 1) i' b cs hb hok' c hc
      rw [runChunks]
      cases search i0 hd with
      | ok results => simpa using Or.inr hmem
      | error e => simpa using hmem

theorem dedupById_go_subset :
    ∀ (l acc : List Contact),
      ∀ c ∈ l.foldl
        (fun acc contact =>
          if acc.any (fun c => c.id == contact.id) then acc else acc ++ [contact]) acc,
      c ∈ acc ++ l := by
  intro l
  induction l with
  | nil => intro acc c hc; simpa using hc
  | cons a l ih =>
    intro acc c hc
    simp only [List.foldl_cons] at hc
    by_cases ha : acc.any (fun c => c.id == a.id)
    · rw [if_pos ha] at hc
      have := ih acc c hc
      rw [List.mem_append] at this
      rcases this with h1 | h1
      · exact List.mem_append.2 (Or.inl h1)
      · exact List.mem_append.2 (Or.inr (List.mem_cons_of_mem _ h1))
    · rw [if_neg ha] at hc
      have := ih (acc ++ [a]) c hc
      rw [List.mem_append, List.mem_append] at this
      rcases this with (h1 | h1) | h1
      · exact List.mem_append.2 (Or.inl h1)
      · rw [List.mem_singleton] at h1
        exact List.mem_append.2 (Or.inr (h1 ▸ List.mem_cons_self _ _))
      · exact List.mem_append.2 (Or.inr (List.mem_cons_of_mem _ h1))

theorem dedupById_subset (l : List Contact) : ∀ c ∈ dedupById l, c ∈ l := by
  intro c hc
  have := dedupById_go_subset l [] c hc
  simpa using this

theorem dedupById_go_find (x : String) :
    ∀ (l acc : List Contact),
      (l.foldl
        (fun acc contact =>
          if acc.any (fun c => c.id == contact.id) then acc else acc ++ [contact]) acc).find?
        (fun c => c.id == x) = (acc ++ l).find? (fun c => c.id == x) := by
  intro l
  induction l with
  | nil => intro acc; simp
  | cons a l ih =>
    intro acc
    simp only [List.foldl_cons]
    by_cases ha : acc.any (fun c => c.id == a.id)
    · rw [if_pos ha, ih acc, List.find?_append, List.find?_append]
      cases hacc : acc.find? (fun c => c.id == x) with
      | some y => simp [Option.or]
      | none =>
        simp only [Option.or]
        have hx : ¬ (a.id == x) = true := by
          intro hax
          rw [List.any_eq_true] at ha
          obtain ⟨y, hy, hyid⟩ := ha
          have h1 : y.id = a.id := by simpa using hyid
          have h2 : a.id = x := by simpa using hax
          have := List.find?_eq_none.1 hacc y hy
          rw [h1, h2] at this
          simp at this
        have hx' : ¬ ((fun (c : Contact) => c.id == x) a) = true := hx
        exact (List.find?_cons_of_neg l hx').symm
    · rw [if_neg ha, ih (acc ++ [a]), List.append_assoc, List.singleton_append]

theorem dedupById_find (l : List Contact) (x : String) :
    (dedupById l).find? (fun c => c.id == x) = l.find? (fun c => c.id == x) := by
  have := dedupById_go_find x l []
  simpa [dedupById] using this

theorem objSet_snd_mem (m : List (String × Contact)) (k : String) (v : Contact)
    (kv : String × Contact) (hkv : kv ∈ objSet m k v) : kv.2 = v ∨ kv ∈ m := by
  rw [objSet] at hkv
  by_cases hm : m.any (fun kv => kv.1 == k)
  · rw [if_pos hm] at hkv
    rw [List.mem_map] at hkv
    obtain ⟨kv', hkv', heq⟩ := hkv
    by_cases hk : (kv'.1 == k) = true
    · rw [if_pos hk] at heq
      exact Or.inl (by rw [← heq])
    · rw [if_neg hk] at heq
      exact Or.inr (heq ▸ hkv')
  · rw [if_neg hm, List.mem_append] at hkv
    rcases hkv with h1 | h1
    · exact Or.inr h1
    · rw [List.mem_singleton] at h1
      exact Or.inl (by rw [h1])

theorem buildMap_snd_mem (parse : PhoneParser) (uniqueContacts : List Contact)
    (phoneNumbers : List JSValue) :
    ∀ kv ∈ buildMap parse uniqueContacts phoneNumbers, kv.2 ∈ uniqueContacts := by
  rw [buildMap]
  suffices h : ∀ (vs : List JSValue) (acc : List (String × Contact)),
      (∀ kv ∈ acc, kv.2 ∈ uniqueContacts) →
      ∀ kv ∈ vs.foldl
        (fun m v =>
          match v with
          | .vstr originalPhone =>
            if originalPhone = "" then m
            else
              match (uniqueContacts.filter
                      (contactMatchesVariations (phoneVariations parse v))).head? with
              | some c => objSet m originalPhone c
              | none => m
          | _ => m) acc, kv.2 ∈ uniqueContacts by
    exact h phoneNumbers [] (by simp)
  intro vs
  induction vs with
  | nil => intro acc hacc kv hkv; exact hacc kv hkv
  | cons v vs ih =>
    intro acc hacc kv hkv
    simp only [List.foldl_cons] at hkv
    refine ih _ ?_ kv hkv
    intro kv' hkv'
    cases v with
    | vstr s =>
      by_cases hs : s = ""
      · simp only [hs, if_pos rfl] at hkv'
        exact hacc kv' hkv'
      · simp only [if_neg hs] at hkv'
        cases hhead : (uniqueContacts.filter
            (contactMatchesVariations (phoneVariations parse (.vstr s)))).head? with
        | some c =>
          rw [hhead] at hkv'
          rcases objSet_snd_mem acc s c kv' hkv' with h1 | h1
          · rw [h1]
            have hc : c ∈ uniqueContacts.filter
                (contactMatchesVariations (phoneVariations parse (.vstr s))) :=
              List.mem_of_mem_head? (by simp [hhead])
            exact (List.mem_filter.1 hc).1
          · exact hacc kv' h1
        | none =>
          rw [hhead] at hkv'
          exact hacc kv' hkv'
    | vnum n => exact hacc kv' hkv'
    | vbool b => exact hacc kv' hkv'
    | vnull => exact hacc kv' hkv'
    | vundefined => exact hacc kv' hkv'

theorem runChunks_const_mem (c : Contact) :
    ∀ (bs : List (List String)) (i : Nat) (x : Contact),
      x ∈ (runChunks (fun _ _ => .ok [c]) i bs).1 → x = c := by
  intro bs
  induction bs with
  | nil => intro i x hx; simp [runChunks] at hx
  | cons b rest ih =>
    intro i x hx
    simp only [runChunks] at hx
    rcases (by simpa using hx :
        x = c ∨ x ∈ (runChunks (fun _ _ => Except.ok [c]) (i + 1) rest).1) with h1 | h1
    · exact h1
    · exact ih (i + 1) x h1

/-! Concrete collaborators and records used by witnesses and
counterexamples. -/

/-- A parser that rejects every input (models libphonenumber-js on
unparseable strings). -/
def failParse : PhoneParser := fun _ => none

/-- The parsed value libphonenumber-js produces for `+14155552671`
(the spec's US example scenario). -/
def usParsed : ParsedNumber :=
  { number := "+14155552671"
    nationalNumber := "4155552671"
    countryCallingCode := "1"
    country := some "US"
    formatInternational := "+1 415-555-2671"
    formatNational := "(415) 555-2671" }

/-- A parser that recognizes exactly `+14155552671`. -/
def usParse : PhoneParser := fun s => if s = "+14155552671" then some usParsed else none

/-- A contact whose only phone-bearing field is `999` — it matches no
variation of the phone `12`. -/
def contact999 : Contact :=
  { id := "hs1", phone := some "999", mobilephone := none,
    hs_searchable_calculated_phone_number := none,
    hs_searchable_calculated_mobile_number := none,
    hs_whatsapp_phone_number := none }

/-- A HubSpot search collaborator that fails every chunk with a 401. -/
def authSearch401 : String → List String → Except HttpError (List Contact) :=
  fun _ _ => .error { status := 401, msg := "Unauthorized" }

/-- A token-refresh collaborator that always succeeds. -/
def refreshOk : String → Except String String := fun _ => .ok "newToken"

/-- A Zoho composite collaborator that answers every request chunk with a
single 200 response carrying `contact999`. -/
def zohoServerC : List String → Except String (List ZResp) :=
  fun _ => .ok [{ status := 200, data := [contact999] }]

/-- A HubSpot search collaborator that returns `contact999` for every
chunk. -/
def hubSearchC : Nat → List String → Except String (List Contact) :=
  fun _ _ => .ok [contact999]

/-! Claim theorems. -/

/-- C1: for every non-empty input string whose normalized form fails to
parse, `generatePhoneNumberVariations` does not throw and returns exactly
the set containing the raw string and the raw string with its first `'+'`
removed (the two coincide when the input has no `'+'`).  The empty string
never reaches the parse step: it is rejected by the entry guard (C8). -/
theorem c1_parse_fail_exact (parse : PhoneParser) (phone : String)
    (hne : phone ≠ "") (hfail : parse (plusNormalize phone) = none) :
    ∃ variations, generatePhoneNumberVariations parse (.vstr phone) = .ok variations ∧
      ∀ s, s ∈ variations ↔ (s = phone ∨ s = replaceFirstPlus phone) := by
  refine ⟨variationList parse phone,
    generatePhoneNumberVariations_vstr parse phone hne, ?_⟩
  intro s
  rw [variationList_of_parse_fail parse phone hfail, mem_dedupKeepFirst]
  simp

/-- Witness for C1 at the unparseable input `"ab"`. -/
theorem c1_parse_fail_exact_witness :
    ∃ variations, generatePhoneNumberVariations failParse (.vstr "ab") = .ok variations ∧
      ∀ s, s ∈ variations ↔ (s = "ab" ∨ s = replaceFirstPlus "ab") :=
  c1_parse_fail_exact failParse "ab" (by decide) rfl

/-- C2: for every non-empty input string that parses, the returned
variation list contains both the canonical E.164 string
(`parsedNumber.number`) and the raw input string. -/
theorem c2_parse_ok_superset (parse : PhoneParser) (phone : String)
    (p : ParsedNumber) (hne : phone ≠ "") (hok : parse (plusNormalize phone) = some p) :
    ∃ variations, generatePhoneNumberVariations parse (.vstr phone) = .ok variations ∧
      phone ∈ variations ∧ p.number ∈ variations :=
  ⟨variationList parse phone,
    generatePhoneNumberVariations_vstr parse phone hne,
    raw_mem_variationList parse phone,
    number_mem_variationList parse phone p hok⟩

/-- Witness for C2 at the spec's US example `"14155552671"`. -/
theorem c2_parse_ok_superset_witness :
    ∃ variations, generatePhoneNumberVariations usParse (.vstr "14155552671") = .ok variations ∧
      "14155552671" ∈ variations ∧ usParsed.number ∈ variations :=
  c2_parse_ok_superset usParse "14155552671" usParsed (by decide) rfl

/-- C10 (implicit): when an unparseable input contains no `'+'`, the two
fallback members coincide and the result is the one-element list holding
exactly the raw input; and the second fallback member is formed by
removing only the FIRST `'+'` (JavaScript `replace` with a string
pattern), so for an input `s₁ ++ "+" ++ s₂` with `'+' ∉ s₁` it is
`s₁ ++ s₂`, retaining any further `'+'` inside `s₂`. -/
theorem c10_first_plus_only (parse : PhoneParser) (phone s₁ s₂ : String)
    (hne : phone ≠ "") (hfail : parse (plusNormalize phone) = none)
    (hnp : hasPlus phone = false)
    (h1 : '+' ∉ s₁.data)
    (hfail2 : parse (plusNormalize (s₁ ++ "+" ++ s₂)) = none) :
    generatePhoneNumberVariations parse (.vstr phone) = .ok [phone] ∧
    generatePhoneNumberVariations parse (.vstr (s₁ ++ "+" ++ s₂)) =
      .ok (dedupKeepFirst [s₁ ++ "+" ++ s₂, s₁ ++ s₂]) := by
  constructor
  · rw [generatePhoneNumberVariations_vstr parse phone hne,
        variationList_of_parse_fail parse phone hfail,
        replaceFirstPlus_of_no_plus phone (by simpa [hasPlus] using hnp)]
    simp [dedupKeepFirst]
  · have hne2 : (s₁ ++ "+" ++ s₂) ≠ "" := by
      intro h
      have hd : (s₁ ++ "+" ++ s₂).data = [] := by rw [h]
      rw [String.data_append, String.data_append] at hd
      simp at hd
    rw [generatePhoneNumberVariations_vstr parse _ hne2,
        variationList_of_parse_fail parse _ hfail2,
        replaceFirstPlus_append s₁ s₂ h1]

/-- Witness for C10: `"12"` (no plus) collapses to one element, and
`"9" ++ "+" ++ "+8"` (two pluses) keeps the second plus. -/
theorem c10_first_plus_only_witness :
    generatePhoneNumberVariations failParse (.vstr "12") = .ok ["12"] ∧
    generatePhoneNumberVariations failParse (.vstr ("9" ++ "+" ++ "+8")) =
      .ok (dedupKeepFirst ["9" ++ "+" ++ "+8", "9" ++ "+8"]) :=
  c10_first_plus_only failParse "12" "9" "+8" (by decide) rfl (by decide) (by decide) rfl

/-- C3: the predicate the matcher filters the deduplicated contacts with
holds exactly when some variation equals some (truthy) phone-bearing field
value of the contact, either verbatim or after stripping all non-digits
from both sides; and concretely the field value `"(212) 555-2368"` matches
the variation `"2125552368"` by the digit-only pass. -/
theorem c3_matching_rule :
    (∀ (variations : List String) (contact : Contact),
        contactMatchesVariations variations contact = true ↔
          ∃ variation ∈ variations, ∃ fieldValue ∈ contactPhones contact,
            fieldValue = variation ∨ digitsOnly fieldValue = digitsOnly variation) ∧
    phoneMatches "(212) 555-2368" "2125552368" = true := by
  constructor
  · intro variations contact
    rw [contactMatchesVariations]
    simp only [List.any_eq_true, phoneMatches, Bool.or_eq_true, beq_iff_eq]
  · decide

/-- Witness for C3: instantiate the matching rule at a concrete contact
holding `"(212) 555-2368"` in `mobilephone`, with the single variation
`"2125552368"`. -/
theorem c3_matching_rule_witness :
    contactMatchesVariations ["2125552368"]
      { id := "nyc", phone := none, mobilephone := some "(212) 555-2368",
        hs_searchable_calculated_phone_number := none,
        hs_searchable_calculated_mobile_number := none,
        hs_whatsapp_phone_number := none } = true :=
  (c3_matching_rule.1 _ _).2
    ⟨"2125552368", by decide, "(212) 555-2368", by decide,
      Or.inr (by decide)⟩

/-- C4: deduplication keeps the first occurrence of each identifier
authoritative (`find?` by id is unchanged), and the phone-to-contact map
built over the deduplicated list never references more distinct contact
ids than the number of unique identifiers in the accumulated input. -/
theorem c4_dedup_bound (contacts : List Contact) (parse : PhoneParser)
    (phoneNumbers : List JSValue) :
    (∀ x, (dedupById contacts).find? (fun c => c.id == x) =
        contacts.find? (fun c => c.id == x)) ∧
    ((buildMap parse (dedupById contacts) phoneNumbers).map
        (fun kv => kv.2.id)).toFinset.card ≤
      (contacts.map Contact.id).toFinset.card := by
  constructor
  · intro x
    exact dedupById_find contacts x
  · apply Finset.card_le_card
    intro x hx
    rw [List.mem_toFinset] at hx ⊢
    rw [List.mem_map] at hx
    obtain ⟨kv, hkv, rfl⟩ := hx
    have h1 : kv.2 ∈ dedupById contacts := buildMap_snd_mem parse _ phoneNumbers kv hkv
    have h2 : kv.2 ∈ contacts := dedupById_subset contacts kv.2 h1
    exact List.mem_map.2 ⟨kv.2, h2, rfl⟩

/-- C5: the HubSpot resolution invokes the search collaborator once per
batch — exactly `⌈totalVariations / 100⌉` times, here written
`(totalVariations + 99) / 100` in natural division — and no batch holds
more than 100 variation strings. -/
theorem c5_chunking (parse : PhoneParser)
    (search : Nat → List String → Except String (List Contact))
    (phoneNumbers : List JSValue) :
    searchInvocations parse search phoneNumbers =
      ((allVariations parse phoneNumbers).length + 99) / 100 ∧
    ∀ batch ∈ chunkList 100 (allVariations parse phoneNumbers), batch.length ≤ 100 := by
  constructor
  · rw [searchInvocations]
    by_cases he : (allVariations parse phoneNumbers).isEmpty
    · have hnil : allVariations parse phoneNumbers = [] := by
        simpa [List.isEmpty_iff] using he
      simp [he, hnil]
    · simp only [he, Bool.false_eq_true, if_false]
      rw [runChunks_count, chunkList_length]
  · exact chunkList_mem_le 100 _

/-- Witness for C5: one phone yielding one variation gives exactly one
search invocation. -/
theorem c5_chunking_witness :
    searchInvocations failParse hubSearchC [JSValue.vstr "12"] = 1 := by
  have h := (c5_chunking failParse hubSearchC [JSValue.vstr "12"]).1
  rw [h]
  decide

/-- C6: a chunk whose search call fails is skipped and the remaining
chunks still contribute: the whole resolution equals the resolution in
which the failing chunk simply returns no contacts (in particular no
error propagates to the caller), and every contact returned by a
successful chunk is accumulated for matching. -/
theorem c6_partial_failure (parse : PhoneParser)
    (search : Nat → List String → Except String (List Contact))
    (phoneNumbers : List JSValue) (j : Nat) (e : String)
    (hfail : ∀ batch, search j batch = .error e) :
    contactExistanceBulkOnHubspot parse search phoneNumbers =
      contactExistanceBulkOnHubspot parse (patchChunk j search) phoneNumbers ∧
    ∀ (i : Nat) (batch : List String) (results : List Contact),
      (chunkList 100 (allVariations parse phoneNumbers))[i]? = some batch →
      search i batch = .ok results →
      ∀ c ∈ results,
        c ∈ (runChunks search 0 (chunkList 100 (allVariations parse phoneNumbers))).1 := by
  constructor
  · simp only [contactExistanceBulkOnHubspot]
    rw [runChunks_patch search j e hfail]
  · intro i batch results hb hok
    exact runChunks_mem search _ 0 i batch results hb (by simpa using hok)

/-- Witness for C6: with a search collaborator failing only on chunk 1,
resolving one phone equals the patched resolution, and the contacts of the
successful chunk 0 are accumulated. -/
theorem c6_partial_failure_witness :
    (contactExistanceBulkOnHubspot failParse
        (fun i b => if i = 1 then .error "boom" else hubSearchC i b) [.vstr "12"] =
      contactExistanceBulkOnHubspot failParse
        (patchChunk 1 (fun i b => if i = 1 then .error "boom" else hubSearchC i b))
        [.vstr "12"]) ∧
    ∀ (i : Nat) (batch : List String) (results : List Contact),
      (chunkList 100 (allVariations failParse [.vstr "12"]))[i]? = some batch →
      (fun i b => if i = 1 then .error "boom" else hubSearchC i b) i batch = .ok results →
      ∀ c ∈ results,
        c ∈ (runChunks (fun i b => if i = 1 then .error "boom" else hubSearchC i b) 0
              (chunkList 100 (allVariations failParse [.vstr "12"]))).1 :=
  c6_partial_failure failParse
    (fun i b => if i = 1 then .error "boom" else hubSearchC i b)
    [.vstr "12"] 1 "boom" (fun _ => rfl)

/-- C7 (amended): on a per-chunk 401, if a refresh credential was
supplied, exactly one token-refresh-and-retry of that chunk is attempted
(it is the single extra `search` call, and on success the remaining chunks
run with the new token, `+ 2` invocations for that chunk); but if the
refresh or the retried search fails, the ORIGINAL 401 error propagates as
a terminal failure of the whole resolution call — the chunk is NOT
skipped; and when no refresh credential exists the 401 likewise
propagates. -/
theorem c7_auth_retry_behaviour
    (search : String → List String → Except HttpError (List Contact))
    (refreshFn : String → Except String String)
    (accessToken : String) (batch : List String) (rest : List (List String))
    (e : HttpError) (he : search accessToken batch = .error e)
    (h401 : e.status = 401) :
    (runChunksAuth search none refreshFn accessToken (batch :: rest) = .error e) ∧
    (∀ rt msg, refreshFn rt = .error msg →
        runChunksAuth search (some rt) refreshFn accessToken (batch :: rest) = .error e) ∧
    (∀ rt newTok e2, refreshFn rt = .ok newTok → search newTok batch = .error e2 →
        runChunksAuth search (some rt) refreshFn accessToken (batch :: rest) = .error e) ∧
    (∀ rt newTok retryResults,
        refreshFn rt = .ok newTok → search newTok batch = .ok retryResults →
        runChunksAuth search (some rt) refreshFn accessToken (batch :: rest) =
          (match runChunksAuth search (some rt) refreshFn newTok rest with
           | .ok (r, n) => .ok (retryResults ++ r, n + 2)
           | .error e2 => .error e2)) := by
  refine ⟨?_, ?_, ?_, ?_⟩
  · simp only [runChunksAuth]
    rw [he]
    simp [h401]
  · intro rt msg hr
    simp only [runChunksAuth]
    rw [he]
    simp [h401, hr]
  · intro rt newTok e2 hr hretry
    simp only [runChunksAuth]
    rw [he]
    simp [h401, hr, hretry]
  · intro rt newTok retryResults hr hretry
    simp only [runChunksAuth]
    rw [he]
    simp [h401, hr, hretry]

/-- Witness for the amended C7, with the always-401 search collaborator
and an always-succeeding refresh. -/
theorem c7_auth_retry_behaviour_witness :
    (runChunksAuth authSearch401 none refreshOk "token"
        [["12"]] = .error { status := 401, msg := "Unauthorized" }) ∧
    (∀ rt msg, refreshOk rt = .error msg →
        runChunksAuth authSearch401 (some rt) refreshOk "token" [["12"]] =
          .error { status := 401, msg := "Unauthorized" }) ∧
    (∀ rt newTok e2, refreshOk rt = .ok newTok →
        authSearch401 newTok ["12"] = .error e2 →
        runChunksAuth authSearch401 (some rt) refreshOk "token" [["12"]] =
          .error { status := 401, msg := "Unauthorized" }) ∧
    (∀ rt newTok retryResults, refreshOk rt = .ok newTok →
        authSearch401 newTok ["12"] = .ok retryResults →
        runChunksAuth authSearch401 (some rt) refreshOk "token" [["12"]] =
          (match runChunksAuth authSearch401 (some rt) refreshOk newTok [] with
           | .ok (r, n) => .ok (retryResults ++ r, n + 2)
           | .error e2 => .error e2)) :=
  c7_auth_retry_behaviour authSearch401 refreshOk "token" ["12"] []
    { status := 401, msg := "Unauthorized" } rfl rfl

/-- Counterexample to C7 as stated: a refresh credential IS supplied, the
refresh succeeds, the retried chunk fails again — the claim says the
chunk is skipped and resolution continues, but the resolution call
terminates with the original 401 error instead of returning a map. -/
theorem c7_counterexample :
    contactExistanceBulkOnHubspotAuth failParse authSearch401 (some "refresh")
        refreshOk "token" [.vstr "12"] =
      .error { status := 401, msg := "Unauthorized" } := by
  have hv : allVariations failParse [.vstr "12"] = ["12"] := rfl
  have hc : chunkList 100 (["12"] : List String) = [["12"]] := by
    rw [chunkList_cons _ _ _ (by norm_num)]
    simp [chunkList_nil]
  simp only [contactExistanceBulkOnHubspotAuth, hv, hc]
  simp [runChunksAuth, authSearch401, refreshOk]

/-- C8 (amended): the `InvalidInputError` guard (`throw
Error('Phone number is required')`) fires exactly for FALSY inputs — the
empty string, `0`, `false`, `null`, `undefined`; a truthy non-string also
fails, but with a `TypeError` at `phone.includes`, not with the
`InvalidInputError` the claim names; and in batch resolution the
`phone && typeof phone === 'string'` guard keeps every such value away
from the generator, so neither failure ever aborts the batch loop (it
always completes with the pooled variations). -/
theorem c8_invalid_input_behaviour :
    (∀ (parse : PhoneParser) (v : JSValue), jsTruthy v = false →
        generatePhoneNumberVariations parse v =
          .error (.invalidInput "Phone number is required")) ∧
    (∀ (parse : PhoneParser) (v : JSValue), jsTruthy v = true → isJsString v = false →
        generatePhoneNumberVariations parse v =
          .error (.typeError "phone.includes is not a function")) ∧
    (∀ (parse : PhoneParser) (phoneNumbers : List JSValue),
        collectVariations parse phoneNumbers = .ok (allVariations parse phoneNumbers)) := by
  refine ⟨?_, ?_, ?_⟩
  · intro parse v hv
    cases v with
    | vstr s =>
      have hs : s = "" := by simpa [jsTruthy] using hv
      subst hs
      rfl
    | vnum n =>
      have hn : n = 0 := by simpa [jsTruthy] using hv
      subst hn
      rfl
    | vbool b =>
      have hb : b = false := by simpa [jsTruthy] using hv
      subst hb
      rfl
    | vnull => rfl
    | vundefined => rfl
  · intro parse v hv hs
    cases v with
    | vstr s => simp [isJsString] at hs
    | vnum n =>
      rw [generatePhoneNumberVariations] <;> simp [hv]
    | vbool b =>
      rw [generatePhoneNumberVariations] <;> simp [hv]
    | vnull => simp [jsTruthy] at hv
    | vundefined => simp [jsTruthy] at hv
  · intro parse phoneNumbers
    exact collectVariations_ok parse phoneNumbers

/-- Witness for the amended C8: the empty string hits the guard, the
truthy number `123` raises the `TypeError` instead, and a batch containing
both still pools its variations without aborting. -/
theorem c8_invalid_input_behaviour_witness :
    (generatePhoneNumberVariations failParse (.vstr "") =
        .error (.invalidInput "Phone number is required")) ∧
    (generatePhoneNumberVariations failParse (.vnum 123) =
        .error (.typeError "phone.includes is not a function")) ∧
    (collectVariations failParse [.vstr "", .vnum 123, .vstr "12"] =
        .ok (allVariations failParse [.vstr "", .vnum 123, .vstr "12"])) :=
  ⟨c8_invalid_input_behaviour.1 failParse (.vstr "") (by decide),
   c8_invalid_input_behaviour.2.1 failParse (.vnum 123) (by decide) rfl,
   c8_invalid_input_behaviour.2.2 failParse [.vstr "", .vnum 123, .vstr "12"]⟩

/-- Counterexample to C8 as stated: the truthy non-string input `123` does
fail, but with the `TypeError` from `phone.includes`, not with the
`InvalidInputError` (`'Phone number is required'`) guard the claim
asserts for every non-string input. -/
theorem c8_counterexample :
    generatePhoneNumberVariations failParse (.vnum 123) =
      .error (.typeError "phone.includes is not a function") ∧
    ∀ msg, generatePhoneNumberVariations failParse (.vnum 123) ≠
      .error (.invalidInput msg) := by
  constructor
  · rfl
  · intro msg h
    rw [show generatePhoneNumberVariations failParse (.vnum 123) =
        .error (.typeError "phone.includes is not a function") from rfl] at h
    simp at h

/-- C9 (amended): the two CRM integrations share the VARIATION GENERATION
identically — the HubSpot variation pool for a phone is exactly
`variationList`, the same list from which the Zoho search criteria are
built — but NOT the deduplication-and-matching step: the Zoho resolution
maps a phone to the first record of the CRM's own per-phone search
response unconditionally, while the HubSpot resolution deduplicates the
accumulated contacts client-side and keeps only contacts passing the
exact-then-digit-only variation match. -/
theorem c9_shared_generator_divergent_matching (parse : PhoneParser)
    (phone : String) (c : Contact) (hp : phone ≠ "") :
    allVariations parse [.vstr phone] = variationList parse phone ∧
    contactExistanceBulkOnZoho parse (fun _ => .ok [{ status := 200, data := [c] }])
        [.vstr phone] = [(phone, c)] ∧
    (contactMatchesVariations (variationList parse phone) c = false →
      contactExistanceBulkOnHubspot parse (fun _ _ => .ok [c]) [.vstr phone] = []) := by
  have hpv : phoneVariations parse (.vstr phone) = variationList parse phone := by
    simp [phoneVariations, hp]
  have hall : allVariations parse [.vstr phone] = variationList parse phone := by
    simp [allVariations, hpv, jsTruthy, isJsString, hp]
  refine ⟨hall, ?_, ?_⟩
  · have hchunk : chunkList 5 [JSValue.vstr phone] = [[JSValue.vstr phone]] := by
      rw [chunkList_cons _ _ _ (by norm_num)]
      simp [chunkList_nil]
    have hnil : phoneVariations parse (.vstr phone) ≠ [] := by
      rw [hpv]
      exact variationList_ne_nil parse phone
    simp [contactExistanceBulkOnZoho, hchunk, hnil, objSet]
  · intro hmatch
    have hie : (variationList parse phone).isEmpty = false := by
      rcases h : (variationList parse phone).isEmpty with _ | _
      · rfl
      · exact absurd (List.isEmpty_iff.1 h) (variationList_ne_nil parse phone)
    have hfind :
        (dedupById ((runChunks (fun _ _ => .ok [c]) 0
            (chunkList 100 (variationList parse phone))).1)).find?
          (contactMatchesVariations (phoneVariations parse (.vstr phone))) = none := by
      rw [List.find?_eq_none]
      intro x hx
      have hxc : x = c :=
        runChunks_const_mem c _ 0 x (dedupById_subset _ x hx)
      rw [hxc, hpv, hmatch]
      simp
    simp only [contactExistanceBulkOnHubspot, hall, hie, Bool.false_eq_true, if_false]
    simp [buildMap, hp, hfind]

/-- Witness for the amended C9 at the unparseable phone `"12"` and the
non-matching contact `contact999`. -/
theorem c9_shared_generator_divergent_matching_witness :
    allVariations failParse [.vstr "12"] = variationList failParse "12" ∧
    contactExistanceBulkOnZoho failParse
        (fun _ => .ok [{ status := 200, data := [contact999] }])
        [.vstr "12"] = [("12", contact999)] ∧
    (contactMatchesVariations (variationList failParse "12") contact999 = false →
      contactExistanceBulkOnHubspot failParse (fun _ _ => .ok [contact999])
        [.vstr "12"] = []) :=
  c9_shared_generator_divergent_matching failParse "12" contact999 (by decide)

/-- Counterexample to C9 as stated: same phone input `"12"`, same returned
contact record `contact999` — the Zoho resolution maps the phone to the
record (its server returned it for that phone, no client-side matching),
while the HubSpot resolution's deduplication-and-matching rejects it, so
the two integrations do NOT compute the mapping by the same procedure. -/
theorem c9_counterexample :
    contactExistanceBulkOnZoho failParse zohoServerC [.vstr "12"] =
        [("12", contact999)] ∧
    contactExistanceBulkOnHubspot failParse hubSearchC [.vstr "12"] = [] ∧
    ([("12", contact999)] : List (String × Contact)) ≠ [] := by
  have hvl : variationList failParse "12" = ["12"] := rfl
  have hc5 : chunkList 5 [JSValue.vstr "12"] = [[JSValue.vstr "12"]] := by
    rw [chunkList_cons _ _ _ (by norm_num)]
    simp [chunkList_nil]
  have hc100 : chunkList 100 (["12"] : List String) = [["12"]] := by
    rw [chunkList_cons _ _ _ (by norm_num)]
    simp [chunkList_nil]
  refine ⟨?_, ?_, by simp⟩
  · simp [contactExistanceBulkOnZoho, hc5, phoneVariations, hvl, zohoServerC,
      zohoCriteria, objSet]
  · have hall : allVariations failParse [.vstr "12"] = ["12"] := rfl
    simp only [contactExistanceBulkOnHubspot, hall, hc100]
    simp [runChunks, hubSearchC, dedupById, buildMap, phoneVariations, hvl,
      contactMatchesVariations, contactPhones, phoneMatches, digitsOnly, contact999]

end GcsPush
